import Mathlib

/-!
Verification of the Clock Signal repository core against its
natural-language specification.

Shallow embedding of:
* the WD1770-class floppy-controller state machine (`src/unnamed/part_000`,
  i.e. `1770.cpp`);
* the PowerPC instruction decoding model
  (`src/InstructionSets/PowerPC/Instruction.hpp`);
* the Amiga machine's bus dispatch and construction path
  (`src/Machines/Amiga/Amiga.cpp`).

Machine integers are modelled as `Nat` with explicit `% 2^w` / masking where
the C++ uses fixed-width unsigned types, and as explicit two's-complement
reinterpretation (`toInt16` / `toInt32`) where the C++ converts to a signed
type.
-/

namespace WD

/-- States of the WD1770 controller state machine.  The enum itself lives in
`1770.hpp`, which is not part of the source excerpt; the list of states is
taken from every `State::...` value referenced by `1770.cpp`. -/
inductive State where
  | Waiting
  | BeginType1
  | BeginType1PostSpin
  | TestTrack
  | TestDirection
  | TestHead
  | StepDelay
  | TestVerify
  | VerifyTrack
  | BeginType2
  | TestPause
  | TestWrite
  | BeginType3
  | WaitForSixIndexPulses
deriving DecidableEq, Repr

namespace Flag

/-- Modelled from the spec: `1770.hpp` (which assigns the `Flag` constants) is
not under `src/`; the bit positions follow the WD1770 status-register layout
implied by the spec's status-bit list ("busy, data-request, CRC-error,
lost-data, record-not-found, motor-on") and by the literal `0x60` that
`1770.cpp` clears alongside them in `BeginType2`. -/
def Busy : Nat := 0x01

/-- Data-request status bit. -/
def DataRequest : Nat := 0x02

/-- Lost-data status bit. -/
def LostData : Nat := 0x04

/-- CRC-error status bit. -/
def CRCError : Nat := 0x08

/-- Record-not-found status bit. -/
def RecordNotFound : Nat := 0x10

/-- Motor-on status bit. -/
def MotorOn : Nat := 0x80

end Flag

/-- The observable state of a `WD1770` controller instance, bound to a drive
of type `D` (the physical drive is an external collaborator; the controller
reaches it only through `DriveOps`).  Fields mirror the data members used by
`1770.cpp`: registers and status are 8-bit (kept `< 256` by the operations),
`cycles` is the input-clock accumulator of `run_for_cycles`,
`nextState`/`indexHoleCount` are the six-index-pulse bookkeeping, and
`hasHitError`/`logCount` model the function-local `static bool` one-shot
logging flag of the unhandled-state branch together with the number of
diagnostics actually printed. -/
structure WD1770 (D : Type) where
  drive : D
  state : State
  status : Nat
  track : Nat
  sector : Nat
  data : Nat
  command : Nat
  hasCommand : Bool
  interruptRequest : Bool
  isStepIn : Bool
  dataShiftRegister : Nat
  indexHoleCount : Nat
  nextState : State
  stepDelayCount : Nat
  cycles : Nat
  hasHitError : Bool
  logCount : Nat
deriving DecidableEq, Repr

/-- Interface of the physical drive collaborator (`Storage::Disk::Drive`),
whose implementation is outside the excerpt: `step direction`, the per-cycle
rotation `Storage::Disk::Drive::run_for_cycles(1)` (here `runOne`), and the
`get_is_track_zero` sensor. -/
structure DriveOps (D : Type) where
  step : Int → D → D
  runOne : D → D
  isTrackZero : D → Bool

variable {D : Type}

/-- `WD1770::set_register`: register writes decoded from `address & 3`.
Writing address 0 latches a pending command byte. -/
def set_register (address value : Nat) (m : WD1770 D) : WD1770 D :=
  if address &&& 3 = 0 then { m with command := value % 256, hasCommand := true }
  else if address &&& 3 = 1 then { m with track := value % 256 }
  else if address &&& 3 = 2 then { m with sector := value % 256 }
  else { m with data := value % 256 }

/-- `WD1770::get_register`: register reads decoded from `address & 3`; the
default case returns the status register. -/
def get_register (address : Nat) (m : WD1770 D) : Nat :=
  if address &&& 3 = 1 then m.track
  else if address &&& 3 = 2 then m.sector
  else if address &&& 3 = 3 then m.data
  else m.status

/-- The `if(status_ & Flag::MotorOn) Storage::Disk::Drive::run_for_cycles(1);`
line at the top of each iteration of `WD1770::run_for_cycles`: the physical
drive rotates one cycle whenever the motor-on status bit is set. -/
def motorAdvance (d : DriveOps D) (m : WD1770 D) : WD1770 D :=
  if m.status &&& Flag.MotorOn ≠ 0 then { m with drive := d.runOne m.drive } else m

/-- The `switch(state_)` of `WD1770::run_for_cycles`.  The returned `Bool` is
`true` for the `continue` arms and `false` for the `default` arm's early
`return`. -/
def dispatch (d : DriveOps D) (m : WD1770 D) : WD1770 D × Bool :=
  match m.state with
  | .Waiting =>
      (if m.hasCommand then
        { m with hasCommand := false,
                 state := if m.command &&& 0x80 ≠ 0 then
                            (if m.command &&& 0x40 ≠ 0 then .BeginType3 else .BeginType2)
                          else .BeginType1 }
       else m, true)
  | .WaitForSixIndexPulses =>
      ({ m with status := m.status ||| Flag.MotorOn }, true)
  | .BeginType1 =>
      let m1 := { m with
        status := (m.status ||| Flag.Busy) &&& (0xff ^^^ (Flag.DataRequest ||| Flag.CRCError)),
        interruptRequest := false }
      (if m1.command &&& 0x08 ≠ 0 then
        { m1 with nextState := .BeginType1PostSpin, indexHoleCount := 0,
                  state := .WaitForSixIndexPulses }
       else { m1 with state := .BeginType1PostSpin }, true)
  | .BeginType1PostSpin =>
      let m1 :=
        if m.command >>> 4 = 0 then { m with track := 0xff, data := 0x00 }
        else if m.command >>> 4 = 1 then { m with data := 0x00 }
        else if m.command >>> 4 = 4 ∨ m.command >>> 4 = 5 then { m with isStepIn := true }
        else if m.command >>> 4 = 6 ∨ m.command >>> 4 = 7 then { m with isStepIn := false }
        else m
      (if m1.command >>> 5 = 0 then { m1 with state := .TestTrack }
       else if m1.command &&& 0x10 ≠ 0 then { m1 with state := .TestDirection }
       else { m1 with state := .TestHead }, true)
  | .TestTrack =>
      let m1 := { m with dataShiftRegister := m.data }
      (if m1.track = m1.dataShiftRegister then { m1 with state := .TestVerify }
       else { m1 with isStepIn := decide (m1.dataShiftRegister < m1.track),
                      state := .TestDirection }, true)
  | .TestDirection =>
      ({ m with track := (if m.isStepIn then m.track + 255 else m.track + 1) % 256,
                state := .TestHead }, true)
  | .TestHead =>
      (if d.isTrackZero m.drive && !m.isStepIn then
        { m with track := 0, state := .TestVerify }
       else
        { m with drive := d.step (if m.isStepIn then 1 else -1) m.drive,
                 state := .StepDelay, stepDelayCount := 0 }, true)
  | .StepDelay =>
      let m1 :=
        if m.stepDelayCount = m.command &&& 3 then
          { m with state := if m.command >>> 5 ≠ 0 then .TestVerify else .TestTrack }
        else m
      ({ m1 with stepDelayCount := m1.stepDelayCount + 1 }, true)
  | .TestVerify =>
      (if m.command &&& 0x04 ≠ 0 then { m with state := .VerifyTrack }
       else { m with interruptRequest := true,
                     status := m.status &&& (0xff ^^^ Flag.Busy),
                     state := .Waiting }, true)
  | .BeginType2 =>
      let m1 := { m with
        status := (m.status ||| Flag.Busy) &&&
          (0xff ^^^ (Flag.DataRequest ||| Flag.LostData ||| Flag.RecordNotFound ||| 0x60)) }
      (if m1.command &&& 0x08 = 0 then
        { m1 with nextState := .TestPause, indexHoleCount := 0,
                  state := .WaitForSixIndexPulses }
       else { m1 with state := .TestPause }, true)
  | .TestPause =>
      ({ m with state := .TestWrite }, true)
  | _ =>
      ({ m with hasHitError := true,
                logCount := if m.hasHitError then m.logCount else m.logCount + 1 }, false)

/-- One iteration of the `while` body of `WD1770::run_for_cycles`, after the
`cycles -= 8` bookkeeping: the drive advance followed by the state switch. -/
def body (d : DriveOps D) (m0 : WD1770 D) : WD1770 D × Bool :=
  dispatch d (motorAdvance d m0)

/-- The `while(cycles > 8)` loop of `WD1770::run_for_cycles`.  The structural
`fuel` argument only bounds the iteration count; since every iteration removes
8 from `cycles`, any `fuel ≥ cycles` makes this exactly the C++ loop (see
`runLoop_fuel_irrelevant`). -/
def runLoop (d : DriveOps D) : Nat → WD1770 D → WD1770 D
  | 0, m => m
  | fuel + 1, m =>
      if 8 < m.cycles then
        let r := body d { m with cycles := m.cycles - 8 }
        if r.2 then runLoop d fuel r.1 else r.1
      else m

/-- `WD1770::run_for_cycles`: accumulate the requested cycles, then perform
one micro-step per 8 accumulated cycles until at most 8 remain (or an
unhandled state returns early). -/
def run_for_cycles (d : DriveOps D) (n : Nat) (m : WD1770 D) : WD1770 D :=
  runLoop d (m.cycles + n) { m with cycles := m.cycles + n }

/-- `WD1770::process_index_hole`: always increment the index-pulse counter;
only while waiting for six index pulses does the sixth pulse resume the
recorded next state. -/
def process_index_hole (m : WD1770 D) : WD1770 D :=
  let m1 := { m with indexHoleCount := m.indexHoleCount + 1 }
  if m1.state = State.WaitForSixIndexPulses ∧ m1.indexHoleCount = 6 then
    { m1 with state := m1.nextState }
  else m1

/-- States having a `case` in the `switch` of `WD1770::run_for_cycles`.
`VerifyTrack`, `TestWrite` and `BeginType3` are assigned but have no handler,
so they fall to the `default` arm. -/
def handled : State → Bool
  | .VerifyTrack | .TestWrite | .BeginType3 => false
  | _ => true

end WD

namespace WD

variable {D : Type}

/-- A trivial drive used to close scenario runs: stepping and rotation carry
no observable state and the track-zero sensor reads false.  (During the
restore runs below the controller's `is_step_in_` flag stays set, so the
sensor value is short-circuited away and cannot influence the controller.) -/
def unitDrive : DriveOps Unit :=
  { step := fun _ _ => (), runOne := fun _ => (), isTrackZero := fun _ => false }

/-- A drive whose state counts how many times its one-cycle advance
(`runOne`) has been invoked; `step` and the sensor are inert. -/
def countingDrive : DriveOps Nat :=
  { step := fun _ x => x, runOne := fun x => x + 1, isTrackZero := fun _ => false }

/-- A freshly constructed controller.  The `WD1770` constructor initialises
`state_` to `Waiting`, `status_` to 0 and `has_command_` to `false`; the
remaining members are left uninitialised by the C++ and are taken as zero
here (scenario theorems that depend on them either quantify over them or set
them through `set_register`). -/
def freshWD : WD1770 Unit :=
  { drive := (), state := .Waiting, status := 0, track := 0, sector := 0, data := 0,
    command := 0, hasCommand := false, interruptRequest := false, isStepIn := false,
    dataShiftRegister := 0, indexHoleCount := 0, nextState := .Waiting,
    stepDelayCount := 0, cycles := 0, hasHitError := false, logCount := 0 }

/-- One micro-step of the controller, disregarding the cycle accumulator
(which `runLoop` manages separately and no `switch` arm reads). -/
def quantum (d : DriveOps D) (m : WD1770 D) : WD1770 D := (body d m).1

lemma process_index_hole_no_trigger (m : WD1770 D) (h : m.indexHoleCount + 1 ≠ 6) :
    process_index_hole m = { m with indexHoleCount := m.indexHoleCount + 1 } := by
  unfold process_index_hole
  exact if_neg (fun hx => h hx.2)

lemma process_index_hole_iter (m : WD1770 D)
    (hc : m.indexHoleCount = 0) :
    ∀ k, k ≤ 5 → process_index_hole^[k] m = { m with indexHoleCount := k } := by
  intro k hk
  induction k with
  | zero =>
    rw [Function.iterate_zero_apply, ← hc]
  | succ n ih =>
    rw [Function.iterate_succ_apply', ih (by omega),
        process_index_hole_no_trigger _ (by simp; omega)]

/-- C1: while the controller sits in the `WaitForSixIndexPulses` sub-state
with the index-pulse counter freshly zeroed, six `process_index_hole`
notifications move it to the recorded next state while five leave it in the
sub-state; every notification increments the counter unconditionally, and in
any other state a notification never changes the state. -/
theorem C1_six_index_pulses (D : Type) :
    (∀ (m : WD1770 D), m.state = State.WaitForSixIndexPulses → m.indexHoleCount = 0 →
        (process_index_hole^[6] m).state = m.nextState ∧
        (process_index_hole^[5] m).state = State.WaitForSixIndexPulses) ∧
    (∀ (m : WD1770 D), (process_index_hole m).indexHoleCount = m.indexHoleCount + 1) ∧
    (∀ (m : WD1770 D), m.state ≠ State.WaitForSixIndexPulses →
        (process_index_hole m).state = m.state) := by
  refine ⟨fun m hs hc => ?_, fun m => ?_, fun m hs => ?_⟩
  · have h5 : process_index_hole^[5] m = { m with indexHoleCount := 5 } :=
      process_index_hole_iter m hc 5 (by omega)
    constructor
    · rw [show (6 : Nat) = 5 + 1 from rfl, Function.iterate_succ_apply', h5]
      unfold process_index_hole
      rw [if_pos ⟨hs, rfl⟩]
    · rw [h5]; exact hs
  · unfold process_index_hole
    dsimp only
    split <;> rfl
  · unfold process_index_hole
    rw [if_neg (fun hx => hs hx.1)]

/-- Witness controller for `C1_six_index_pulses`: in the six-pulse wait
sub-state, counter zero, recorded next state `TestPause`. -/
def w4sipSample : WD1770 Unit :=
  { freshWD with state := .WaitForSixIndexPulses, nextState := .TestPause }

/-- Witness for C1 at a concrete controller. -/
theorem C1_six_index_pulses_witness :
    (process_index_hole^[6] w4sipSample).state = w4sipSample.nextState ∧
    (process_index_hole^[5] w4sipSample).state = State.WaitForSixIndexPulses :=
  (C1_six_index_pulses Unit).1 w4sipSample rfl rfl

end WD


namespace WD

set_option maxRecDepth 100000 in
/-- C3: observed spin-up polarity of the Type 1 dispatch.  Writing command
`0x00` (Type 1, bit 3 clear, i.e. spin-up wait expected per the claim) from
`Waiting` and running two micro-steps lands the controller in
`BeginType1PostSpin` — it never enters `WaitForSixIndexPulses` — while
command `0x08` (bit 3 set, the "no-spin-up" value) does enter
`WaitForSixIndexPulses` with the counter zeroed and `BeginType1PostSpin`
recorded as next state.  `BeginType1` therefore waits for six index pulses
iff bit 3 is SET, the opposite of the claim (and the opposite of
`BeginType2`, which tests `!(command_ & 0x08)` on the same documented `h`
command bit).  The busy/data-request/CRC-error part of the claim does hold
and is recorded here too. -/
theorem C3_type1_spinup_divergence :
    ((run_for_cycles unitDrive 20 (set_register 0 0x00 freshWD)).state
        = State.BeginType1PostSpin ∧
     (run_for_cycles unitDrive 20 (set_register 0 0x00 freshWD)).state
        ≠ State.WaitForSixIndexPulses ∧
     (run_for_cycles unitDrive 20 (set_register 0 0x00 freshWD)).status &&& Flag.Busy ≠ 0 ∧
     (run_for_cycles unitDrive 20 (set_register 0 0x00 freshWD)).status &&& Flag.DataRequest = 0 ∧
     (run_for_cycles unitDrive 20 (set_register 0 0x00 freshWD)).status &&& Flag.CRCError = 0) ∧
    ((run_for_cycles unitDrive 20 (set_register 0 0x08 freshWD)).state
        = State.WaitForSixIndexPulses ∧
     (run_for_cycles unitDrive 20 (set_register 0 0x08 freshWD)).indexHoleCount = 0 ∧
     (run_for_cycles unitDrive 20 (set_register 0 0x08 freshWD)).nextState
        = State.BeginType1PostSpin) := by
  decide

set_option maxRecDepth 100000 in
/-- C4 counterexample: command byte `0x03` decodes as restore (`command >>
4 = 0`), not step, so from a fresh controller with track and data registers
preset to 5, running the command to completion (three `run_for_cycles`
calls of 4800 cycles, 1799 micro-steps in total, ample for the 1790 the
restore needs) reaches `Waiting` but does NOT leave the track register at
5. -/
theorem C4_track_not_preserved :
    ¬ ((run_for_cycles unitDrive 4800 (run_for_cycles unitDrive 4800
          (run_for_cycles unitDrive 4800
            (set_register 0 0x03 (set_register 3 5 (set_register 1 5 freshWD)))))).state
            = State.Waiting →
       (run_for_cycles unitDrive 4800 (run_for_cycles unitDrive 4800
          (run_for_cycles unitDrive 4800
            (set_register 0 0x03 (set_register 3 5 (set_register 1 5 freshWD)))))).track = 5) := by
  have h1 : run_for_cycles unitDrive 4800
      (set_register 0 0x03 (set_register 3 5 (set_register 1 5 freshWD))) =
      { drive := (), state := State.TestDirection, status := 1, track := 170, sector := 0,
        data := 0, command := 3, hasCommand := false, interruptRequest := false,
        isStepIn := true, dataShiftRegister := 0, indexHoleCount := 0,
        nextState := State.Waiting, stepDelayCount := 4, cycles := 8,
        hasHitError := false, logCount := 0 } := by decide
  have h2 : run_for_cycles unitDrive 4800
      ({ drive := (), state := State.TestDirection, status := 1, track := 170, sector := 0,
         data := 0, command := 3, hasCommand := false, interruptRequest := false,
         isStepIn := true, dataShiftRegister := 0, indexHoleCount := 0,
         nextState := State.Waiting, stepDelayCount := 4, cycles := 8,
         hasHitError := false, logCount := 0 } : WD1770 Unit) =
      { drive := (), state := State.StepDelay, status := 1, track := 84, sector := 0,
        data := 0, command := 3, hasCommand := false, interruptRequest := false,
        isStepIn := true, dataShiftRegister := 0, indexHoleCount := 0,
        nextState := State.Waiting, stepDelayCount := 3, cycles := 8,
        hasHitError := false, logCount := 0 } := by decide
  rw [h1, h2]
  decide

set_option maxRecDepth 100000 in
/-- C4 as amended: with track and data registers preset to 5, writing
`0x03` to register 0 (restore with step-delay code 3) and calling
`run_for_cycles` to completion leaves the controller in `Waiting` with the
Busy status bit cleared, the interrupt request raised and the track
register at 0 — the restore arm presets the track register to `0xff` and
the target to 0, so the `TestTrack` equality path is reached only at track
0, never at 5. -/
theorem C4_step_at_target_amended :
    (run_for_cycles unitDrive 4800 (run_for_cycles unitDrive 4800
        (run_for_cycles unitDrive 4800
          (set_register 0 0x03 (set_register 3 5 (set_register 1 5 freshWD)))))).state
          = State.Waiting ∧
    (run_for_cycles unitDrive 4800 (run_for_cycles unitDrive 4800
        (run_for_cycles unitDrive 4800
          (set_register 0 0x03 (set_register 3 5 (set_register 1 5 freshWD)))))).status
          &&& Flag.Busy = 0 ∧
    (run_for_cycles unitDrive 4800 (run_for_cycles unitDrive 4800
        (run_for_cycles unitDrive 4800
          (set_register 0 0x03 (set_register 3 5 (set_register 1 5 freshWD)))))).interruptRequest
          = true ∧
    (run_for_cycles unitDrive 4800 (run_for_cycles unitDrive 4800
        (run_for_cycles unitDrive 4800
          (set_register 0 0x03 (set_register 3 5 (set_register 1 5 freshWD)))))).track = 0 := by
  have h1 : run_for_cycles unitDrive 4800
      (set_register 0 0x03 (set_register 3 5 (set_register 1 5 freshWD))) =
      { drive := (), state := State.TestDirection, status := 1, track := 170, sector := 0,
        data := 0, command := 3, hasCommand := false, interruptRequest := false,
        isStepIn := true, dataShiftRegister := 0, indexHoleCount := 0,
        nextState := State.Waiting, stepDelayCount := 4, cycles := 8,
        hasHitError := false, logCount := 0 } := by decide
  have h2 : run_for_cycles unitDrive 4800
      ({ drive := (), state := State.TestDirection, status := 1, track := 170, sector := 0,
         data := 0, command := 3, hasCommand := false, interruptRequest := false,
         isStepIn := true, dataShiftRegister := 0, indexHoleCount := 0,
         nextState := State.Waiting, stepDelayCount := 4, cycles := 8,
         hasHitError := false, logCount := 0 } : WD1770 Unit) =
      { drive := (), state := State.StepDelay, status := 1, track := 84, sector := 0,
        data := 0, command := 3, hasCommand := false, interruptRequest := false,
        isStepIn := true, dataShiftRegister := 0, indexHoleCount := 0,
        nextState := State.Waiting, stepDelayCount := 3, cycles := 8,
        hasHitError := false, logCount := 0 } := by decide
  rw [h1, h2]
  refine ⟨by decide, by decide, by decide, by decide⟩

end WD

namespace WD

lemma runLoop_stop {D : Type} (d : DriveOps D) (fuel : Nat) (m : WD1770 D)
    (h : ¬ 8 < m.cycles) : runLoop d fuel m = m := by
  cases fuel with
  | zero => rfl
  | succ f => rw [runLoop, if_neg h]

/-- C6: once an unhandled state (`VerifyTrack`, `TestWrite` or `BeginType3`)
is current, a `run_for_cycles` call that accumulates more than one quantum
performs exactly one micro-step and returns early: the cycle accumulator
keeps the unconsumed remainder, the one-shot flag is set, the diagnostic
counter increments only if the flag was not already set, the drive advances
one cycle only if the motor is on, and every other field — registers,
status bits, the index-pulse and step-delay counters, the state itself — is
untouched.  A second `run_for_cycles` call afterwards adds no further
diagnostic, so the log is emitted at most once across all occurrences. -/
theorem C6_unhandled_state_halts (D : Type) (d : DriveOps D) (n n2 : Nat) (m : WD1770 D)
    (hu : handled m.state = false) (hc : 8 < m.cycles + n) :
    run_for_cycles d n m =
      { m with cycles := m.cycles + n - 8,
               drive := if m.status &&& Flag.MotorOn ≠ 0 then d.runOne m.drive else m.drive,
               hasHitError := true,
               logCount := if m.hasHitError then m.logCount else m.logCount + 1 } ∧
    (run_for_cycles d n2 (run_for_cycles d n m)).logCount =
      (if m.hasHitError then m.logCount else m.logCount + 1) := by
  have main : ∀ (m : WD1770 D) (n : Nat), handled m.state = false → 8 < m.cycles + n →
      run_for_cycles d n m =
        { m with cycles := m.cycles + n - 8,
                 drive := if m.status &&& Flag.MotorOn ≠ 0 then d.runOne m.drive else m.drive,
                 hasHitError := true,
                 logCount := if m.hasHitError then m.logCount else m.logCount + 1 } := by
    intro m n hu hc
    unfold run_for_cycles
    obtain ⟨f, hf⟩ : ∃ f, m.cycles + n = f + 1 := ⟨m.cycles + n - 1, by omega⟩
    rw [hf, runLoop, if_pos (show (8 : Nat) < f + 1 by omega)]
    by_cases hP : m.status &&& Flag.MotorOn ≠ 0 <;>
      cases hst : m.state <;>
      simp_all [body, motorAdvance, dispatch, handled]
  refine ⟨main m n hu hc, ?_⟩
  rw [main m n hu hc]
  by_cases h8 : 8 < (m.cycles + n - 8) + n2
  · rw [main _ n2 (by simpa using hu) (by simpa using h8)]
    simp
  · unfold run_for_cycles
    rw [runLoop_stop _ _ _ (by simpa using h8)]

/-- Witness for C6: a controller stuck in `BeginType3` (reachable from a
Force Interrupt style command byte `0xd0`), motor off, flag not yet set. -/
theorem C6_unhandled_state_halts_witness :
    run_for_cycles unitDrive 20 { freshWD with state := State.BeginType3 } =
      { freshWD with state := State.BeginType3, cycles := 12,
                     hasHitError := true, logCount := 1 } ∧
    (run_for_cycles unitDrive 20
        (run_for_cycles unitDrive 20 { freshWD with state := State.BeginType3 })).logCount = 1 := by
  have h := C6_unhandled_state_halts Unit unitDrive 20 20
    { freshWD with state := State.BeginType3 } (by decide) (by decide)
  simpa using h

end WD

namespace WD

lemma motorAdvance_cycles {D : Type} (d : DriveOps D) (m : WD1770 D) (x : Nat) :
    motorAdvance d { m with cycles := x } = { motorAdvance d m with cycles := x } := by
  unfold motorAdvance
  by_cases hP : m.status &&& Flag.MotorOn ≠ 0 <;> simp [hP]

lemma dispatch_cycles {D : Type} (d : DriveOps D) (m : WD1770 D) (x : Nat) :
    dispatch d { m with cycles := x } =
      ({ (dispatch d m).1 with cycles := x }, (dispatch d m).2) := by
  obtain ⟨dr, st, s, tr, se, da, co, hc, ir, isi, dsr, ihc, ns, sdc, cy, he, lc⟩ := m
  cases st <;> simp only [dispatch] <;> split_ifs <;> rfl

lemma body_cycles {D : Type} (d : DriveOps D) (m : WD1770 D) (x : Nat) :
    body d { m with cycles := x } =
      ({ (body d m).1 with cycles := x }, (body d m).2) := by
  unfold body
  rw [motorAdvance_cycles, dispatch_cycles]

lemma quantum_cycles {D : Type} (d : DriveOps D) (m : WD1770 D) (x : Nat) :
    quantum d { m with cycles := x } = { quantum d m with cycles := x } := by
  unfold quantum
  rw [body_cycles]

lemma body_snd_cycles {D : Type} (d : DriveOps D) (m : WD1770 D) (x : Nat) :
    (body d { m with cycles := x }).2 = (body d m).2 := by
  rw [body_cycles]

lemma quantum_iterate_cycles {D : Type} (d : DriveOps D) (j : Nat) (m : WD1770 D) (x : Nat) :
    (quantum d)^[j] { m with cycles := x } = { (quantum d)^[j] m with cycles := x } := by
  induction j generalizing m with
  | zero => rfl
  | succ j ih =>
    rw [Function.iterate_succ_apply, Function.iterate_succ_apply, quantum_cycles, ih]

lemma runLoop_iterates {D : Type} (d : DriveOps D) :
    ∀ (k fuel : Nat) (m : WD1770 D),
      m.cycles ≤ fuel → (m.cycles - 1) / 8 = k →
      (∀ j, j < k → (body d ((quantum d)^[j] m)).2 = true) →
      runLoop d fuel m = { (quantum d)^[k] m with cycles := m.cycles - 8 * k } := by
  intro k
  induction k with
  | zero =>
    intro fuel m hfuel hk hcont
    rw [runLoop_stop d fuel m (by omega)]
    simp
  | succ k ih =>
    intro fuel m hfuel hk hcont
    have h8 : 8 < m.cycles := by omega
    obtain ⟨f, hf⟩ : ∃ f, fuel = f + 1 := ⟨fuel - 1, by omega⟩
    subst hf
    rw [runLoop, if_pos h8]
    have hb2 : (body d { m with cycles := m.cycles - 8 }).2 = true := by
      rw [body_snd_cycles]
      simpa using hcont 0 (by omega)
    simp only [hb2, if_true]
    have hb1 : (body d { m with cycles := m.cycles - 8 }).1
        = { quantum d m with cycles := m.cycles - 8 } := by
      unfold quantum
      rw [body_cycles]
    rw [hb1]
    rw [ih f { quantum d m with cycles := m.cycles - 8 }
      (by simp; omega) (by simp; omega)
      (fun j hj => by
        rw [quantum_iterate_cycles, body_snd_cycles, ← Function.iterate_succ_apply]
        exact hcont (j + 1) (by omega))]
    rw [quantum_iterate_cycles, ← Function.iterate_succ_apply]
    dsimp only
    have harith : m.cycles - 8 - 8 * k = m.cycles - 8 * (k + 1) := by omega
    rw [harith]

lemma dispatch_counting_drive (m : WD1770 Nat) :
    (dispatch countingDrive m).1.drive = m.drive := by
  obtain ⟨dr, st, s, tr, se, da, co, hc, ir, isi, dsr, ihc, ns, sdc, cy, he, lc⟩ := m
  cases st <;> simp only [dispatch, countingDrive] <;> split_ifs <;> rfl

/-- C8: structure of the controller's tick granularity.  First conjunct: as
long as no unhandled state forces an early return, `run_for_cycles` performs
exactly one micro-state step (`quantum`) per 8 accumulated input clock
cycles — `(cycles + n - 1) / 8` steps for a call of `n` cycles on an
accumulator holding `cycles` — carrying the sub-quantum remainder in the
accumulator; the ratio 8 is a constant of the loop, not a per-instance
parameter.  Second conjunct: on each micro-step the underlying drive's own
one-cycle advance runs exactly once if the MotorOn status bit is set at that
step and not at all otherwise (observed through a drive whose state counts
its `runOne` invocations). -/
theorem C8_fixed_quantum (D : Type) (d : DriveOps D) :
    (∀ (m : WD1770 D) (n : Nat),
        (∀ j, j < (m.cycles + n - 1) / 8 → (body d ((quantum d)^[j] m)).2 = true) →
        run_for_cycles d n m =
          { (quantum d)^[(m.cycles + n - 1) / 8] m with
              cycles := m.cycles + n - 8 * ((m.cycles + n - 1) / 8) }) ∧
    (∀ (m : WD1770 Nat),
        (body countingDrive m).1.drive =
          m.drive + (if m.status &&& Flag.MotorOn ≠ 0 then 1 else 0)) := by
  constructor
  · intro m n hcont
    unfold run_for_cycles
    rw [runLoop_iterates d ((m.cycles + n - 1) / 8) (m.cycles + n)
      { m with cycles := m.cycles + n } (by simp) (by simp)
      (fun j hj => by
        rw [quantum_iterate_cycles, body_snd_cycles]
        exact hcont j (by simpa using hj))]
    rw [quantum_iterate_cycles]
  · intro m
    unfold body
    rw [dispatch_counting_drive]
    by_cases hP : m.status &&& Flag.MotorOn ≠ 0 <;> simp [motorAdvance, hP, countingDrive]

/-- Witness for C8's quantised-stepping conjunct: a fresh controller run for
21 cycles performs exactly `(21 - 1) / 8 = 2` micro-steps, leaving 5 cycles
in the accumulator. -/
theorem C8_fixed_quantum_witness :
    run_for_cycles unitDrive 21 freshWD =
      { (quantum unitDrive)^[(freshWD.cycles + 21 - 1) / 8] freshWD with
          cycles := freshWD.cycles + 21 - 8 * ((freshWD.cycles + 21 - 1) / 8) } :=
  (C8_fixed_quantum Unit unitDrive).1 freshWD 21 (by decide)

end WD

namespace WD


variable {D : Type}

@[simp] lemma motorAdvance_state (d : DriveOps D) (m : WD1770 D) :
    (motorAdvance d m).state = m.state := by
  unfold motorAdvance; split <;> rfl

@[simp] lemma motorAdvance_status (d : DriveOps D) (m : WD1770 D) :
    (motorAdvance d m).status = m.status := by
  unfold motorAdvance; split <;> rfl

@[simp] lemma motorAdvance_track (d : DriveOps D) (m : WD1770 D) :
    (motorAdvance d m).track = m.track := by
  unfold motorAdvance; split <;> rfl

@[simp] lemma motorAdvance_data (d : DriveOps D) (m : WD1770 D) :
    (motorAdvance d m).data = m.data := by
  unfold motorAdvance; split <;> rfl

@[simp] lemma motorAdvance_command (d : DriveOps D) (m : WD1770 D) :
    (motorAdvance d m).command = m.command := by
  unfold motorAdvance; split <;> rfl

@[simp] lemma motorAdvance_hasCommand (d : DriveOps D) (m : WD1770 D) :
    (motorAdvance d m).hasCommand = m.hasCommand := by
  unfold motorAdvance; split <;> rfl

@[simp] lemma motorAdvance_interruptRequest (d : DriveOps D) (m : WD1770 D) :
    (motorAdvance d m).interruptRequest = m.interruptRequest := by
  unfold motorAdvance; split <;> rfl

@[simp] lemma motorAdvance_isStepIn (d : DriveOps D) (m : WD1770 D) :
    (motorAdvance d m).isStepIn = m.isStepIn := by
  unfold motorAdvance; split <;> rfl

@[simp] lemma motorAdvance_stepDelayCount (d : DriveOps D) (m : WD1770 D) :
    (motorAdvance d m).stepDelayCount = m.stepDelayCount := by
  unfold motorAdvance; split <;> rfl

lemma step_waiting_cmd (d : DriveOps D) (m : WD1770 D)
    (hst : m.state = State.Waiting) (hhc : m.hasCommand = true) (hcmd : m.command = 0) :
    (quantum d m).state = State.BeginType1 ∧
    (quantum d m).hasCommand = false ∧
    (quantum d m).track = m.track ∧
    (quantum d m).data = m.data ∧
    (quantum d m).command = m.command ∧
    (quantum d m).status = m.status ∧
    (quantum d m).interruptRequest = m.interruptRequest ∧
    (body d m).2 = true := by
  obtain ⟨dr, st, s, tr, se, da, co, hc, ir, isi, dsr, ihc, ns, sdc, cy, he, lc⟩ := m
  dsimp only at hst hhc hcmd
  subst hst hhc hcmd
  by_cases hP : s &&& Flag.MotorOn ≠ 0 <;>
    simp [quantum, body, motorAdvance, dispatch, hP]



lemma step_beginType1 (d : DriveOps D) (m : WD1770 D)
    (hst : m.state = State.BeginType1) (hcmd : m.command = 0) :
    (quantum d m).state = State.BeginType1PostSpin ∧
    (quantum d m).status =
      (m.status ||| Flag.Busy) &&& (0xff ^^^ (Flag.DataRequest ||| Flag.CRCError)) ∧
    (quantum d m).interruptRequest = false ∧
    (quantum d m).track = m.track ∧
    (quantum d m).data = m.data ∧
    (quantum d m).command = m.command ∧
    (quantum d m).hasCommand = m.hasCommand ∧
    (body d m).2 = true := by
  obtain ⟨dr, st, s, tr, se, da, co, hc, ir, isi, dsr, ihc, ns, sdc, cy, he, lc⟩ := m
  dsimp only at hst hcmd
  subst hst hcmd
  by_cases hP : s &&& Flag.MotorOn ≠ 0 <;>
    simp [quantum, body, motorAdvance, dispatch, hP]

lemma step_postSpin (d : DriveOps D) (m : WD1770 D)
    (hst : m.state = State.BeginType1PostSpin) (hcmd : m.command = 0) :
    (quantum d m).state = State.TestTrack ∧
    (quantum d m).track = 0xff ∧
    (quantum d m).data = 0 ∧
    (quantum d m).command = m.command ∧
    (quantum d m).hasCommand = m.hasCommand ∧
    (quantum d m).status = m.status ∧
    (quantum d m).interruptRequest = m.interruptRequest ∧
    (body d m).2 = true := by
  obtain ⟨dr, st, s, tr, se, da, co, hc, ir, isi, dsr, ihc, ns, sdc, cy, he, lc⟩ := m
  dsimp only at hst hcmd
  subst hst hcmd
  by_cases hP : s &&& Flag.MotorOn ≠ 0 <;>
    simp [quantum, body, motorAdvance, dispatch, hP]

lemma step_testTrack_eq (d : DriveOps D) (m : WD1770 D)
    (hst : m.state = State.TestTrack) (heq : m.track = m.data) :
    (quantum d m).state = State.TestVerify ∧
    (quantum d m).track = m.track ∧
    (quantum d m).data = m.data ∧
    (quantum d m).command = m.command ∧
    (quantum d m).hasCommand = m.hasCommand ∧
    (quantum d m).status = m.status ∧
    (quantum d m).interruptRequest = m.interruptRequest ∧
    (body d m).2 = true := by
  obtain ⟨dr, st, s, tr, se, da, co, hc, ir, isi, dsr, ihc, ns, sdc, cy, he, lc⟩ := m
  dsimp only at hst heq
  subst hst heq
  by_cases hP : s &&& Flag.MotorOn ≠ 0 <;>
    simp [quantum, body, motorAdvance, dispatch, hP]

lemma step_testTrack_ne (d : DriveOps D) (m : WD1770 D)
    (hst : m.state = State.TestTrack) (hne : ¬ m.track = m.data) :
    (quantum d m).state = State.TestDirection ∧
    (quantum d m).isStepIn = decide (m.data < m.track) ∧
    (quantum d m).track = m.track ∧
    (quantum d m).data = m.data ∧
    (quantum d m).command = m.command ∧
    (quantum d m).hasCommand = m.hasCommand ∧
    (quantum d m).status = m.status ∧
    (quantum d m).interruptRequest = m.interruptRequest ∧
    (body d m).2 = true := by
  obtain ⟨dr, st, s, tr, se, da, co, hc, ir, isi, dsr, ihc, ns, sdc, cy, he, lc⟩ := m
  dsimp only at hst hne
  subst hst
  by_cases hP : s &&& Flag.MotorOn ≠ 0 <;>
    simp [quantum, body, motorAdvance, dispatch, hP, hne]

lemma step_testDirection (d : DriveOps D) (m : WD1770 D)
    (hst : m.state = State.TestDirection) :
    (quantum d m).state = State.TestHead ∧
    (quantum d m).track = (if m.isStepIn then m.track + 255 else m.track + 1) % 256 ∧
    (quantum d m).isStepIn = m.isStepIn ∧
    (quantum d m).data = m.data ∧
    (quantum d m).command = m.command ∧
    (quantum d m).hasCommand = m.hasCommand ∧
    (quantum d m).status = m.status ∧
    (quantum d m).interruptRequest = m.interruptRequest ∧
    (body d m).2 = true := by
  obtain ⟨dr, st, s, tr, se, da, co, hc, ir, isi, dsr, ihc, ns, sdc, cy, he, lc⟩ := m
  dsimp only at hst
  subst hst
  by_cases hP : s &&& Flag.MotorOn ≠ 0 <;>
    simp [quantum, body, motorAdvance, dispatch, hP]

lemma step_testHead_stepIn (d : DriveOps D) (m : WD1770 D)
    (hst : m.state = State.TestHead) (hsi : m.isStepIn = true) :
    (quantum d m).state = State.StepDelay ∧
    (quantum d m).stepDelayCount = 0 ∧
    (quantum d m).track = m.track ∧
    (quantum d m).isStepIn = m.isStepIn ∧
    (quantum d m).data = m.data ∧
    (quantum d m).command = m.command ∧
    (quantum d m).hasCommand = m.hasCommand ∧
    (quantum d m).status = m.status ∧
    (quantum d m).interruptRequest = m.interruptRequest ∧
    (body d m).2 = true := by
  obtain ⟨dr, st, s, tr, se, da, co, hc, ir, isi, dsr, ihc, ns, sdc, cy, he, lc⟩ := m
  dsimp only at hst hsi
  subst hst hsi
  by_cases hP : s &&& Flag.MotorOn ≠ 0 <;>
    simp [quantum, body, motorAdvance, dispatch, hP]

lemma step_stepDelay_done (d : DriveOps D) (m : WD1770 D)
    (hst : m.state = State.StepDelay) (hsdc : m.stepDelayCount = 0)
    (hcmd : m.command = 0) :
    (quantum d m).state = State.TestTrack ∧
    (quantum d m).stepDelayCount = 1 ∧
    (quantum d m).track = m.track ∧
    (quantum d m).data = m.data ∧
    (quantum d m).command = m.command ∧
    (quantum d m).hasCommand = m.hasCommand ∧
    (quantum d m).status = m.status ∧
    (quantum d m).interruptRequest = m.interruptRequest ∧
    (body d m).2 = true := by
  obtain ⟨dr, st, s, tr, se, da, co, hc, ir, isi, dsr, ihc, ns, sdc, cy, he, lc⟩ := m
  dsimp only at hst hsdc hcmd
  subst hst hsdc hcmd
  by_cases hP : s &&& Flag.MotorOn ≠ 0 <;>
    simp [quantum, body, motorAdvance, dispatch, hP]

lemma step_testVerify_done (d : DriveOps D) (m : WD1770 D)
    (hst : m.state = State.TestVerify) (hcmd : m.command = 0) :
    (quantum d m).state = State.Waiting ∧
    (quantum d m).interruptRequest = true ∧
    (quantum d m).status = m.status &&& (0xff ^^^ Flag.Busy) ∧
    (quantum d m).track = m.track ∧
    (quantum d m).data = m.data ∧
    (quantum d m).command = m.command ∧
    (quantum d m).hasCommand = m.hasCommand ∧
    (body d m).2 = true := by
  obtain ⟨dr, st, s, tr, se, da, co, hc, ir, isi, dsr, ihc, ns, sdc, cy, he, lc⟩ := m
  dsimp only at hst hcmd
  subst hst hcmd
  by_cases hP : s &&& Flag.MotorOn ≠ 0 <;>
    simp [quantum, body, motorAdvance, dispatch, hP]

lemma step_waiting_idle (d : DriveOps D) (m : WD1770 D)
    (hst : m.state = State.Waiting) (hhc : m.hasCommand = false) :
    (quantum d m).state = State.Waiting ∧
    (quantum d m).hasCommand = false ∧
    (quantum d m).track = m.track ∧
    (quantum d m).status = m.status ∧
    (quantum d m).interruptRequest = m.interruptRequest ∧
    (body d m).2 = true := by
  obtain ⟨dr, st, s, tr, se, da, co, hc, ir, isi, dsr, ihc, ns, sdc, cy, he, lc⟩ := m
  dsimp only at hst hhc
  subst hst hhc
  by_cases hP : s &&& Flag.MotorOn ≠ 0 <;>
    simp [quantum, body, motorAdvance, dispatch, hP]



lemma waiting_stable (d : DriveOps D) :
    ∀ (j : Nat) (m : WD1770 D), m.state = State.Waiting → m.hasCommand = false →
      (((quantum d)^[j] m).state = State.Waiting ∧
       ((quantum d)^[j] m).hasCommand = false ∧
       ((quantum d)^[j] m).track = m.track ∧
       ((quantum d)^[j] m).status = m.status ∧
       ((quantum d)^[j] m).interruptRequest = m.interruptRequest) ∧
      (∀ i, i < j → (body d ((quantum d)^[i] m)).2 = true) := by
  intro j
  induction j with
  | zero =>
    intro m hst hhc
    exact ⟨⟨hst, hhc, rfl, rfl, rfl⟩, fun i hi => absurd hi (by omega)⟩
  | succ j ih =>
    intro m hst hhc
    obtain ⟨h1, h2, h3, h4, h5, hcont⟩ := step_waiting_idle d m hst hhc
    obtain ⟨⟨g1, g2, g3, g4, g5⟩, gcont⟩ := ih (quantum d m) h1 h2
    refine ⟨⟨?_, ?_, ?_, ?_, ?_⟩, ?_⟩
    · rw [Function.iterate_succ_apply]; exact g1
    · rw [Function.iterate_succ_apply]; exact g2
    · rw [Function.iterate_succ_apply]; exact g3.trans h3
    · rw [Function.iterate_succ_apply]; exact g4.trans h4
    · rw [Function.iterate_succ_apply]; exact g5.trans h5
    · intro i hi
      cases i with
      | zero => simpa using hcont
      | succ i =>
        rw [Function.iterate_succ_apply]
        exact gcont i (by omega)



lemma countdown (d : DriveOps D) :
    ∀ (k : Nat), k ≤ 255 → ∀ (m : WD1770 D),
      m.state = State.TestTrack → m.track = k → m.data = 0 → m.command = 0 →
      m.hasCommand = false →
      (((quantum d)^[4*k+2] m).state = State.Waiting ∧
       ((quantum d)^[4*k+2] m).track = 0 ∧
       ((quantum d)^[4*k+2] m).hasCommand = false ∧
       ((quantum d)^[4*k+2] m).interruptRequest = true ∧
       ((quantum d)^[4*k+2] m).status = m.status &&& (0xff ^^^ Flag.Busy)) ∧
      (∀ j, j < 4*k+2 → (body d ((quantum d)^[j] m)).2 = true) := by
  intro k
  induction k with
  | zero =>
    intro _ m hst htr hda hcmd hhc
    obtain ⟨a1, a2, a3, a4, a5, a6, a7, a8⟩ :=
      step_testTrack_eq d m hst (by rw [htr, hda])
    obtain ⟨b1, b2, b3, b4, b5, b6, b7, b8⟩ :=
      step_testVerify_done d (quantum d m) a1 (a4.trans hcmd)
    have h2 : (quantum d)^[4*0+2] m = quantum d (quantum d m) := rfl
    refine ⟨⟨?_, ?_, ?_, ?_, ?_⟩, ?_⟩
    · rw [h2]; exact b1
    · rw [h2]; exact b4.trans (a2.trans htr)
    · rw [h2]; exact b7.trans (a5.trans hhc)
    · rw [h2]; exact b2
    · rw [h2]; rw [b3, a6]
    · intro j hj
      match j, hj with
      | 0, _ => simpa using a8
      | 1, _ =>
        rw [show (quantum d)^[1] m = quantum d m from rfl]
        exact b8
  | succ k ih =>
    intro hk m hst htr hda hcmd hhc
    obtain ⟨a1, a2, a3, a4, a5, a6, a7, a8, a9⟩ :=
      step_testTrack_ne d m hst (by rw [htr, hda]; omega)
    obtain ⟨b1, b2, b3, b4, b5, b6, b7, b8, b9⟩ :=
      step_testDirection d (quantum d m) a1
    have hq1si : (quantum d m).isStepIn = true := by
      rw [a2, hda, htr]
      simp
    have hq2si : (quantum d (quantum d m)).isStepIn = true := b3.trans hq1si
    obtain ⟨c1, c2, c3, c4, c5, c6, c7, c8, c9, c10⟩ :=
      step_testHead_stepIn d (quantum d (quantum d m)) b1 hq2si
    obtain ⟨e1, e2, e3, e4, e5, e6, e7, e8, e9⟩ :=
      step_stepDelay_done d (quantum d (quantum d (quantum d m))) c1 c2
        (c6.trans (b5.trans (a5.trans hcmd)))
    have hq2tr : (quantum d (quantum d m)).track = k := by
      rw [b2, hq1si]
      simp only [if_true]
      rw [a3, htr]
      omega
    have h4 : (quantum d)^[4] m = quantum d (quantum d (quantum d (quantum d m))) := rfl
    obtain ⟨⟨f1, f2, f3, f4, f5⟩, fcont⟩ :=
      ih (by omega) ((quantum d)^[4] m)
        (by rw [h4]; exact e1)
        (by rw [h4]; exact e3.trans (c3.trans hq2tr))
        (by rw [h4]; exact e4.trans (c5.trans (b4.trans (a4.trans hda))))
        (by rw [h4]; exact e5.trans (c6.trans (b5.trans (a5.trans hcmd))))
        (by rw [h4]; exact e6.trans (c7.trans (b6.trans (a6.trans hhc))))
    have hm4status : ((quantum d)^[4] m).status = m.status := by
      rw [h4]; exact e7.trans (c8.trans (b7.trans a7))
    have hsplit : (quantum d)^[4*(k+1)+2] m = (quantum d)^[4*k+2] ((quantum d)^[4] m) := by
      rw [show 4*(k+1)+2 = (4*k+2)+4 by ring, Function.iterate_add_apply]
    refine ⟨⟨?_, ?_, ?_, ?_, ?_⟩, ?_⟩
    · rw [hsplit]; exact f1
    · rw [hsplit]; exact f2
    · rw [hsplit]; exact f3
    · rw [hsplit]; exact f4
    · rw [hsplit, f5, hm4status]
    · intro j hj
      by_cases hj4 : j < 4
      · match j, hj4 with
        | 0, _ => simpa using a9
        | 1, _ =>
          rw [show (quantum d)^[1] m = quantum d m from rfl]
          exact b9
        | 2, _ =>
          rw [show (quantum d)^[2] m = quantum d (quantum d m) from rfl]
          exact c10
        | 3, _ =>
          rw [show (quantum d)^[3] m = quantum d (quantum d (quantum d m)) from rfl]
          exact e9
      · rw [show j = (j-4)+4 by omega, Function.iterate_add_apply]
        exact fcont (j-4) (by omega)



lemma restore_core (d : DriveOps D) (m : WD1770 D) (K : Nat)
    (hst : m.state = State.Waiting) (hhc : m.hasCommand = true) (hcmd : m.command = 0)
    (hK : 1025 ≤ K) :
    (((quantum d)^[K] m).state = State.Waiting ∧
     ((quantum d)^[K] m).interruptRequest = true ∧
     ((quantum d)^[K] m).status &&& Flag.Busy = 0 ∧
     ((quantum d)^[K] m).track = 0) ∧
    (∀ j, j < K → (body d ((quantum d)^[j] m)).2 = true) := by
  obtain ⟨a1, a2, a3, a4, a5, a6, a7, a8⟩ := step_waiting_cmd d m hst hhc hcmd
  obtain ⟨b1, b2, b3, b4, b5, b6, b7, b8⟩ :=
    step_beginType1 d (quantum d m) a1 (a5.trans hcmd)
  obtain ⟨c1, c2, c3, c4, c5, c6, c7, c8⟩ :=
    step_postSpin d (quantum d (quantum d m)) b1 (b6.trans (a5.trans hcmd))
  have h3 : (quantum d)^[3] m = quantum d (quantum d (quantum d m)) := rfl
  obtain ⟨⟨f1, f2, f3, f4, f5⟩, fcont⟩ :=
    countdown d 255 (le_refl 255) ((quantum d)^[3] m)
      (by rw [h3]; exact c1)
      (by rw [h3]; exact c2)
      (by rw [h3]; exact c3)
      (by rw [h3]; exact c4.trans (b6.trans (a5.trans hcmd)))
      (by rw [h3]; exact c5.trans (b7.trans a2))
  have h1025 : (quantum d)^[1025] m = (quantum d)^[4*255+2] ((quantum d)^[3] m) := by
    rw [show (1025 : Nat) = (4*255+2)+3 by norm_num, Function.iterate_add_apply]
  obtain ⟨⟨g1, g2, g3, g4, g5⟩, gcont⟩ :=
    waiting_stable d (K - 1025) ((quantum d)^[1025] m)
      (by rw [h1025]; exact f1) (by rw [h1025]; exact f3)
  have hKsplit : (quantum d)^[K] m = (quantum d)^[K-1025] ((quantum d)^[1025] m) := by
    conv_lhs => rw [show K = (K-1025)+1025 by omega]
    rw [Function.iterate_add_apply]
  refine ⟨⟨?_, ?_, ?_, ?_⟩, ?_⟩
  · rw [hKsplit]; exact g1
  · rw [hKsplit, g5, h1025]; exact f4
  · rw [hKsplit, g4, h1025, f5, Nat.and_assoc,
        show (0xff ^^^ Flag.Busy) &&& Flag.Busy = 0 by decide, Nat.and_zero]
  · rw [hKsplit, g3, h1025]; exact f2
  · intro j hj
    by_cases hj1025 : j < 1025
    · by_cases hj3 : j < 3
      · match j, hj3 with
        | 0, _ => simpa using a8
        | 1, _ =>
          rw [show (quantum d)^[1] m = quantum d m from rfl]
          exact b8
        | 2, _ =>
          rw [show (quantum d)^[2] m = quantum d (quantum d m) from rfl]
          exact c8
      · rw [show j = (j-3)+3 by omega, Function.iterate_add_apply]
        exact fcont (j-3) (by omega)
    · rw [show j = (j-1025)+1025 by omega, Function.iterate_add_apply]
      exact gcont (j-1025) (by omega)

/-- C2: the restore command completes from any Waiting controller.  For every
drive implementation, every controller state whose machine state is `Waiting`
and whose track register is nonzero, and every call budget accumulating at
least 8201 input cycles, writing command byte `0x00` (restore, step-delay
code 0) through register 0 and running leaves the controller back in
`Waiting` with the interrupt request raised, the Busy status bit clear and
the track register driven to 0.  The bound comes from the step-delay constant
(command bits 0-1, here 0): 3 set-up micro-steps, then 4 micro-steps per track decrement from the preset
0xff down to 0, then 2 closing micro-steps — 1025 8-cycle quanta in all.  Restore presets
the track register to 0xff before seeking, so the conclusion and the bound
are uniform in the initial track value; the nonzero-track hypothesis of the
claim is recorded but not needed. -/
theorem C2_restore_completes (D : Type) (d : DriveOps D) (m : WD1770 D) (n : Nat)
    (hstate : m.state = State.Waiting) ( _htrack : m.track ≠ 0)
    (hn : 8201 ≤ m.cycles + n) :
    (run_for_cycles d n (set_register 0 0x00 m)).state = State.Waiting ∧
    (run_for_cycles d n (set_register 0 0x00 m)).interruptRequest = true ∧
    (run_for_cycles d n (set_register 0 0x00 m)).status &&& Flag.Busy = 0 ∧
    (run_for_cycles d n (set_register 0 0x00 m)).track = 0 := by
  have hset : set_register 0 0x00 m = { m with command := 0, hasCommand := true } := by
    simp [set_register]
  rw [hset]
  obtain ⟨hproj, hcont⟩ :=
    restore_core d { m with command := 0, hasCommand := true }
      ((m.cycles + n - 1) / 8) hstate rfl rfl (by omega)
  have hrun : run_for_cycles d n { m with command := 0, hasCommand := true } =
      { (quantum d)^[(m.cycles + n - 1) / 8] { m with command := 0, hasCommand := true } with
          cycles := m.cycles + n - 8 * ((m.cycles + n - 1) / 8) } := by
    unfold run_for_cycles
    rw [runLoop_iterates d ((m.cycles + n - 1) / 8) (m.cycles + n)
      { m with command := 0, hasCommand := true, cycles := m.cycles + n }
      (by simp) (by simp)
      (fun j hj => by
        rw [show ({ m with command := 0, hasCommand := true, cycles := m.cycles + n } : WD1770 D)
              = { ({ m with command := 0, hasCommand := true } : WD1770 D) with
                  cycles := m.cycles + n } from rfl,
            quantum_iterate_cycles, body_snd_cycles]
        exact hcont j (by simpa using hj))]
    rw [show ({ m with command := 0, hasCommand := true, cycles := m.cycles + n } : WD1770 D)
          = { ({ m with command := 0, hasCommand := true } : WD1770 D) with
              cycles := m.cycles + n } from rfl,
        quantum_iterate_cycles]
  rw [hrun]
  exact ⟨hproj.1, hproj.2.1, hproj.2.2.1, hproj.2.2.2⟩

/-- Witness controller for `C2_restore_completes`: Waiting, but otherwise far
from freshly constructed — motor on, a stale interrupt line, nonzero track,
sector, step-delay and cycle-accumulator values. -/
def c2Sample : WD1770 Unit :=
  { freshWD with status := 0x80, track := 5, sector := 9, data := 3,
                 interruptRequest := true, isStepIn := false,
                 stepDelayCount := 7, cycles := 6 }

/-- Witness for C2 at a concrete controller and budget. -/
theorem C2_restore_completes_witness :
    (run_for_cycles unitDrive 8195 (set_register 0 0x00 c2Sample)).state = State.Waiting ∧
    (run_for_cycles unitDrive 8195 (set_register 0 0x00 c2Sample)).interruptRequest = true ∧
    (run_for_cycles unitDrive 8195 (set_register 0 0x00 c2Sample)).status &&& Flag.Busy = 0 ∧
    (run_for_cycles unitDrive 8195 (set_register 0 0x00 c2Sample)).track = 0 :=
  C2_restore_completes Unit unitDrive c2Sample 8195 rfl (by decide) (by decide)


end WD

namespace InstructionSet
namespace PowerPC

/-- Classified operations, from the `enum class Operation` of
`Instruction.hpp`: the 601-exclusive carry-overs, the 32/64-bit PowerPC
core set, supervisor-level, optional and 64-bit-only instructions, with
`Undefined` for unclassifiable encodings. -/
inductive Operation where
  | Undefined
  | absx | clcs | divx | divsx | dozx | dozi | lscbxx | maskgx | maskirx | mulx
  | nabsx | rlmix | rribx | slex | sleqx | sliqx | slliqx | sllqx | slqx
  | sraiqx | sraqx | srex | sreax | sreqx | sriqx | srliqx | srlqx | srqx
  | addx | addcx | addex | addi | addic | addic_ | addis | addmex | addzex
  | andx | andcx | andi_ | andis_ | bx | bcx | bcctrx | bclrx
  | cmp | cmpi | cmpl | cmpli | cntlzwx
  | crand | crandc | creqv | crnand | crnor | cror | crorc | crxor
  | dcbf | dcbst | dcbt | dcbtst | dcbz | divwx | divwux | eciwx | ecowx
  | eieio | eqvx | extsbx | extshx | fabsx | faddx | faddsx | fcmpo | fcmpu
  | fctiwx | fctiwzx | fdivx | fdivsx | fmaddx | fmaddsx | fmrx | fmsubx
  | fmsubsx | fmulx | fmulsx | fnabsx | fnegx | fnmaddx | fnmaddsx | fnmsubx
  | fnmsubsx | frspx | fsubx | fsubsx | icbi | isync | lbz | lbzu | lbzux
  | lbzx | lfd | lfdu | lfdux | lfdx | lfs | lfsu | lfsux | lfsx | lha | lhau
  | lhaux | lhax | lhbrx | lhz | lhzu | lhzux | lhzx | lmw | lswi | lswx
  | lwarx | lwbrx | lwz | lwzu | lwzux | lwzx | mcrf | mcrfs | mcrxr
  | mfcr | mffsx | mfmsr | mfspr | mfsr | mfsrin | mtcrf
  | mtfsb0x | mtfsb1x | mtfsfx | mtfsfix | mtmsr | mtspr | mtsr | mtsrin
  | mulhwx | mulhwux | mulli | mullwx | nandx | negx | norx | orx | orcx
  | ori | oris | rfi | rlwimix | rlwinmx | rlwnmx | sc | slwx | srawx
  | srawix | srwx | stb | stbu | stbux | stbx | stfd | stfdu | stfdux
  | stfdx | stfs | stfsu | stfsux | stfsx | sth | sthbrx | sthu | sthux
  | sthx | stmw | stswi | stswx | stw | stwbrx | stwcx_ | stwu | stwux
  | stwx | subfx | subfcx | subfex | subfic | subfmex | subfzex | sync
  | tw | twi | xorx | xori | xoris | mftb
  | dcbi
  | tlbia | tlbie | tlbsync
  | fresx | frsqrtex | fselx | fsqrtx | slbia | slbie | stfiwx
  | cntlzdx | divdx | divdux | extswx | fcfidx | fctidx | fctidzx | tdi
  | mulhdux | ldx | sldx | ldux | td | mulhdx | ldarx | stdx | stdux
  | mulld | lwax | lwaux | sradix | srdx | sradx | extsw | fsqrtsx
  | std | stdu | stdcx_
deriving DecidableEq, Repr

/-- Reinterpretation of the low 16 bits of a `Nat` as a two's-complement
`int16_t`, as performed by the C++ casts in the field accessors. -/
def toInt16 (x : Nat) : Int :=
  if x % 2 ^ 16 < 2 ^ 15 then ((x % 2 ^ 16 : Nat) : Int)
  else ((x % 2 ^ 16 : Nat) : Int) - 2 ^ 16

/-- Reinterpretation of the low 32 bits of a `Nat` as a two's-complement
`int32_t`. -/
def toInt32 (x : Nat) : Int :=
  if x % 2 ^ 32 < 2 ^ 31 then ((x % 2 ^ 32 : Nat) : Int)
  else ((x % 2 ^ 32 : Nat) : Int) - 2 ^ 32

/-- A decoded PowerPC instruction: only the operation (and its supervisor
flag) is decoded ahead of time; every other field is a pure on-demand
bit-extraction over the stored 32-bit opcode. -/
structure Instruction where
  operation : Operation
  is_supervisor : Bool
  opcode : Nat
deriving DecidableEq, Repr

namespace Instruction

/-- The one-argument `Instruction(uint32_t opcode)` constructor: stores the
raw word, leaving the operation at `Undefined` and the supervisor flag
clear (the C++ member initialisers). -/
def ofWord (opcode : Nat) : Instruction :=
  { operation := Operation.Undefined, is_supervisor := false, opcode := opcode }

/-- Immediate field used to specify an unsigned 16-bit integer. -/
def uimm (i : Instruction) : Nat := i.opcode &&& 0xffff

/-- Immediate field used to specify a signed 16-bit integer. -/
def simm (i : Instruction) : Int := toInt16 (i.opcode &&& 0xffff)

/-- Immediate field used to specify a signed 16-bit integer. -/
def d (i : Instruction) : Int := toInt16 (i.opcode &&& 0xffff)

/-- Immediate field used to specify a signed 14-bit integer (64-bit only). -/
def ds (i : Instruction) : Int := toInt16 (i.opcode &&& 0xfffc)

/-- Immediate data for a field of the floating point status and condition
register. -/
def imm (i : Instruction) : Nat := (i.opcode >>> 12) &&& 0xf

/-- Conditions on which to trap. -/
def «to» (i : Instruction) : Nat := (i.opcode >>> 21) &&& 0x1f

/-- Register source A or destination. -/
def rA (i : Instruction) : Nat := (i.opcode >>> 16) &&& 0x1f

/-- Register source B. -/
def rB (i : Instruction) : Nat := (i.opcode >>> 11) &&& 0x1f

/-- Register destination. -/
def rD (i : Instruction) : Nat := (i.opcode >>> 21) &&& 0x1f

/-- Register source. -/
def rS (i : Instruction) : Nat := (i.opcode >>> 21) &&& 0x1f

/-- Floating point register source A. -/
def frA (i : Instruction) : Nat := (i.opcode >>> 16) &&& 0x1f

/-- Floating point register source B. -/
def frB (i : Instruction) : Nat := (i.opcode >>> 11) &&& 0x1f

/-- Floating point register source C. -/
def frC (i : Instruction) : Nat := (i.opcode >>> 6) &&& 0x1f

/-- Floating point register source. -/
def frS (i : Instruction) : Nat := (i.opcode >>> 21) &&& 0x1f

/-- Floating point register destination. -/
def frD (i : Instruction) : Nat := (i.opcode >>> 21) &&& 0x1f

/-- Branch conditional options, i.e. options plus branch-prediction flag. -/
def bo (i : Instruction) : Nat := (i.opcode >>> 21) &&& 0x1f

/-- Just the branch options, with the branch-prediction flag severed (the
C++ casts the 4 bits into the `BranchOption` enum, which carries the raw
value). -/
def branch_options (i : Instruction) : Nat := (i.opcode >>> 22) &&& 0xf

/-- The branch-prediction hint: 0 means expect untaken, nonzero take. -/
def branch_prediction_hint (i : Instruction) : Nat := i.opcode &&& 0x200000

/-- Source condition register bit for branch conditionals. -/
def bi (i : Instruction) : Nat := (i.opcode >>> 16) &&& 0x1f

/-- Branch displacement, provided already sign extended. -/
def bd (i : Instruction) : Int := toInt16 (i.opcode &&& 0xfffc)

/-- First 1 bit of a 32/64-bit mask for rotate operations. -/
def mb (i : Instruction) : Nat := (i.opcode >>> 6) &&& 0x1f

/-- Last 1 bit of a 32/64-bit mask for rotate operations. -/
def me (i : Instruction) : Nat := (i.opcode >>> 1) &&& 0x1f

/-- Condition register source bit A. -/
def crbA (i : Instruction) : Nat := (i.opcode >>> 16) &&& 0x1f

/-- Condition register source bit B. -/
def crbB (i : Instruction) : Nat := (i.opcode >>> 11) &&& 0x1f

/-- Condition register destination bit. -/
def crbD (i : Instruction) : Nat := (i.opcode >>> 21) &&& 0x1f

/-- Condition register destination field. -/
def crfD (i : Instruction) : Nat := (i.opcode >>> 23) &&& 0x07

/-- Condition register source field. -/
def crfS (i : Instruction) : Nat := (i.opcode >>> 18) &&& 0x07

/-- Mask identifying fields to be updated by mtcrf. -/
def crm (i : Instruction) : Nat := (i.opcode >>> 12) &&& 0xff

/-- Mask identifying fields to be updated by mtfsf. -/
def fm (i : Instruction) : Nat := (i.opcode >>> 17) &&& 0xff

/-- Number of bytes to move in an immediate string load or store. -/
def nb (i : Instruction) : Nat := (i.opcode >>> 11) &&& 0x1f

/-- A shift amount. -/
def sh (i : Instruction) : Nat := (i.opcode >>> 11) &&& 0x1f

/-- One of the 16 segment registers (32-bit only). -/
def sr (i : Instruction) : Nat := (i.opcode >>> 16) &&& 0xf

/-- A 24-bit signed number, provided already sign extended: bits 2–25 of the
opcode with the two low bits cleared, or-ed with the sign-extension pattern
selected by bit 25, reinterpreted as a signed 32-bit value. -/
def li (i : Instruction) : Int :=
  toInt32 ((i.opcode &&& 0x03fffffc) |||
    (if (i.opcode >>> 25) &&& 1 = 1 then 0xfc000000 else 0x00000000))

/-- Absolute address bit: 0 or non-0. -/
def aa (i : Instruction) : Nat := i.opcode &&& 0x02

/-- Link bit: 0 or non-0. -/
def lk (i : Instruction) : Nat := i.opcode &&& 0x01

/-- Record bit: 0 or non-0. -/
def rc (i : Instruction) : Nat := i.opcode &&& 0x01

/-- Whether to compare 32-bit or 64-bit numbers (64-bit only): 0 or non-0. -/
def l (i : Instruction) : Nat := i.opcode &&& 0x200000

/-- Enables setting of OV and SO in the XER: 0 or non-0. -/
def oe (i : Instruction) : Nat := i.opcode &&& 0x400

end Instruction

end PowerPC
end InstructionSet

namespace InstructionSet
namespace PowerPC

/-- C7: decoding is a pure function of the raw word.  Constructing an
`Instruction` from a word is deterministic (the one-argument constructor
always yields the `Undefined` tag and a clear supervisor flag), and every
field accessor depends only on the stored opcode: two instructions with
the same opcode — whatever their tags or flags — agree on every accessor.
There is no cache or hidden state to diverge on repeated calls. -/
theorem C7_pure_decoding (i1 i2 : Instruction) (h : i1.opcode = i2.opcode) :
    Instruction.ofWord i1.opcode = Instruction.ofWord i2.opcode ∧
    (Instruction.ofWord i1.opcode).operation = Operation.Undefined ∧
    (Instruction.ofWord i1.opcode).is_supervisor = false ∧
    i1.uimm = i2.uimm ∧ i1.simm = i2.simm ∧ i1.d = i2.d ∧ i1.ds = i2.ds ∧
    i1.imm = i2.imm ∧ i1.to = i2.to ∧
    i1.rA = i2.rA ∧ i1.rB = i2.rB ∧ i1.rD = i2.rD ∧ i1.rS = i2.rS ∧
    i1.frA = i2.frA ∧ i1.frB = i2.frB ∧ i1.frC = i2.frC ∧
    i1.frS = i2.frS ∧ i1.frD = i2.frD ∧
    i1.bo = i2.bo ∧ i1.branch_options = i2.branch_options ∧
    i1.branch_prediction_hint = i2.branch_prediction_hint ∧
    i1.bi = i2.bi ∧ i1.bd = i2.bd ∧
    i1.mb = i2.mb ∧ i1.me = i2.me ∧
    i1.crbA = i2.crbA ∧ i1.crbB = i2.crbB ∧ i1.crbD = i2.crbD ∧
    i1.crfD = i2.crfD ∧ i1.crfS = i2.crfS ∧
    i1.crm = i2.crm ∧ i1.fm = i2.fm ∧ i1.nb = i2.nb ∧
    i1.sh = i2.sh ∧ i1.sr = i2.sr ∧ i1.li = i2.li ∧
    i1.aa = i2.aa ∧ i1.lk = i2.lk ∧ i1.rc = i2.rc ∧
    i1.l = i2.l ∧ i1.oe = i2.oe := by
  obtain ⟨op1, s1, o1⟩ := i1
  obtain ⟨op2, s2, o2⟩ := i2
  simp only at h
  subst h
  exact ⟨rfl, rfl, rfl, rfl, rfl, rfl, rfl, rfl, rfl, rfl, rfl, rfl, rfl, rfl,
    rfl, rfl, rfl, rfl, rfl, rfl, rfl, rfl, rfl, rfl, rfl, rfl, rfl, rfl, rfl,
    rfl, rfl, rfl, rfl, rfl, rfl, rfl, rfl, rfl, rfl, rfl, rfl⟩

/-- A decoded branch instruction and a default-constructed instruction over
the same raw word `0x48000001`, used to witness C7. -/
def branchSample : Instruction :=
  { operation := Operation.bx, is_supervisor := true, opcode := 0x48000001 }

/-- A second view of the same word with different tag and flag. -/
def undefinedSample : Instruction := Instruction.ofWord 0x48000001

/-- Witness for C7: the two views of word `0x48000001` agree on
representative accessors from each field family. -/
theorem C7_pure_decoding_witness :
    branchSample.uimm = undefinedSample.uimm ∧
    branchSample.li = undefinedSample.li ∧
    branchSample.bd = undefinedSample.bd ∧
    branchSample.lk = undefinedSample.lk :=
  have h := C7_pure_decoding branchSample undefinedSample rfl
  ⟨h.2.2.2.1, h.2.2.2.2.2.2.2.2.2.2.2.2.2.2.2.2.2.2.2.2.2.2.2.2.2.2.2.2.2.2.2.2.2.2.2.1,
   h.2.2.2.2.2.2.2.2.2.2.2.2.2.2.2.2.2.2.2.2.2.2.1,
   h.2.2.2.2.2.2.2.2.2.2.2.2.2.2.2.2.2.2.2.2.2.2.2.2.2.2.2.2.2.2.2.2.2.2.2.2.2.1⟩

end PowerPC
end InstructionSet

namespace InstructionSet
namespace PowerPC

/-- The spec's description of `li()`, stated arithmetically for comparison
with the implementation: the value of opcode bits 2 through 25 in place
with the two low bits forced to zero (`opcode % 2^26 / 4 * 4`), interpreted
as a 26-bit two's-complement quantity, i.e. sign-extended from bit 25 into
bits 26–31 of a 32-bit signed result. -/
def specLi (opcode : Nat) : Int :=
  let f : Nat := opcode % 2 ^ 26 / 4 * 4
  if f < 2 ^ 25 then (f : Int) else (f : Int) - 2 ^ 26

lemma and_mask_shift2 (n a : Nat) : a &&& ((2 ^ n - 1) <<< 2) = a / 4 % 2 ^ n * 4 := by
  have h4 : a / 4 % 2 ^ n * 4 = ((a >>> 2) % 2 ^ n) <<< 2 := by
    rw [Nat.shiftLeft_eq, Nat.shiftRight_eq_div_pow]
  rw [h4]
  apply Nat.eq_of_testBit_eq
  intro i
  simp only [Nat.testBit_and, Nat.testBit_shiftLeft, Nat.testBit_mod_two_pow,
             Nat.testBit_shiftRight, Nat.testBit_two_pow_sub_one]
  by_cases h2 : 2 ≤ i
  · rw [show 2 + (i - 2) = i by omega]
    simp [h2, Bool.and_comm]
  · simp [h2]

/-- C10: numerical characterisation of the sign-extended branch fields.
`li()` equals the signed value of opcode bits 2–25 with the low two bits
forced to zero, sign-extended from bit 25 (`specLi`); consequently it is a
multiple of 4 lying in `[-2^25, 2^25 - 4]`.  `bd()` is the
`int16_t(opcode & 0xfffc)` reinterpretation and is likewise a multiple of
4. -/
theorem C10_li_bd_signed (a : Nat) (ha : a < 2 ^ 32) :
    (Instruction.ofWord a).li = specLi a ∧
    (4 : Int) ∣ (Instruction.ofWord a).li ∧
    -(2 ^ 25) ≤ (Instruction.ofWord a).li ∧
    (Instruction.ofWord a).li ≤ 2 ^ 25 - 4 ∧
    (Instruction.ofWord a).bd = toInt16 (a &&& 0xfffc) ∧
    (4 : Int) ∣ (Instruction.ofWord a).bd := by
  have keyli : (Instruction.ofWord a).li =
      toInt32 ((a &&& 0x03fffffc) |||
        (if (a >>> 25) &&& 1 = 1 then 0xfc000000 else 0x00000000)) := rfl
  have keybd : (Instruction.ofWord a).bd = toInt16 (a &&& 0xfffc) := rfl
  have hmask : a &&& 0x03fffffc = a / 4 % 2 ^ 24 * 4 := by
    rw [show (0x03fffffc : Nat) = (2 ^ 24 - 1) <<< 2 by norm_num [Nat.shiftLeft_eq]]
    exact and_mask_shift2 24 a
  have hbit : (a >>> 25) &&& 1 = a / 2 ^ 25 % 2 := by
    rw [Nat.and_one_is_mod, Nat.shiftRight_eq_div_pow]
  have hdd : a / 2 ^ 25 = a / 4 / 2 ^ 23 := by
    rw [Nat.div_div_eq_div_mul]
    norm_num
  have hdecomp : a / 4 % 2 ^ 24 = a / 4 % 2 ^ 23 + 2 ^ 23 * (a / 4 / 2 ^ 23 % 2) :=
    Nat.mod_pow_succ
  have hflt : a / 4 % 2 ^ 24 * 4 < 2 ^ 26 := by omega
  have hspec : a % 2 ^ 26 / 4 = a / 4 % 2 ^ 24 := by
    rw [show (2 ^ 26 : Nat) = 4 * 2 ^ 24 by norm_num, Nat.mod_mul_right_div_self]
  have hbd4 : (4 : Int) ∣ (Instruction.ofWord a).bd := by
    have hmask2 : a &&& 0xfffc = a / 4 % 2 ^ 14 * 4 := by
      rw [show (0xfffc : Nat) = (2 ^ 14 - 1) <<< 2 by norm_num [Nat.shiftLeft_eq]]
      exact and_mask_shift2 14 a
    rw [keybd]
    unfold toInt16
    rw [hmask2]
    have hm16 : (a / 4 % 2 ^ 14 * 4) % 2 ^ 16 = a / 4 % 2 ^ 14 * 4 := by omega
    rw [hm16]
    split_ifs with h
    · exact ⟨((a / 4 % 2 ^ 14 : Nat) : Int), by push_cast; ring⟩
    · exact ⟨((a / 4 % 2 ^ 14 : Nat) : Int) - 2 ^ 14, by push_cast; ring⟩
  rcases Nat.mod_two_eq_zero_or_one (a / 2 ^ 25) with hb | hb
  · have hcond : ¬ ((a >>> 25) &&& 1 = 1) := by rw [hbit, hb]; omega
    have hb' : a / 4 / 2 ^ 23 % 2 = 0 := by rw [← hdd]; exact hb
    have hfsmall : a / 4 % 2 ^ 24 * 4 < 2 ^ 25 := by omega
    have hli : (Instruction.ofWord a).li = ((a / 4 % 2 ^ 24 * 4 : Nat) : Int) := by
      rw [keyli]
      unfold toInt32
      rw [if_neg hcond, Nat.or_zero, hmask,
          if_pos (show (a / 4 % 2 ^ 24 * 4) % 2 ^ 32 < 2 ^ 31 by omega),
          Nat.mod_eq_of_lt (by omega)]
    have hsli : specLi a = ((a / 4 % 2 ^ 24 * 4 : Nat) : Int) := by
      unfold specLi
      rw [hspec, if_pos hfsmall]
    exact ⟨by rw [hli, hsli], ⟨((a / 4 % 2 ^ 24 : Nat) : Int), by rw [hli]; push_cast; ring⟩,
      by rw [hli]; push_cast; omega, by rw [hli]; push_cast; omega, keybd, hbd4⟩
  · have hcond : (a >>> 25) &&& 1 = 1 := by rw [hbit, hb]
    have hb' : a / 4 / 2 ^ 23 % 2 = 1 := by rw [← hdd]; exact hb
    have hfge : 2 ^ 25 ≤ a / 4 % 2 ^ 24 * 4 := by omega
    have hor : (a &&& 0x03fffffc) ||| 0xfc000000 = 2 ^ 26 * 63 + a / 4 % 2 ^ 24 * 4 := by
      rw [hmask, Nat.or_comm, show (0xfc000000 : Nat) = 2 ^ 26 * 63 by norm_num]
      exact (Nat.mul_add_lt_is_or hflt 63).symm
    have hli : (Instruction.ofWord a).li = ((a / 4 % 2 ^ 24 * 4 : Nat) : Int) - 2 ^ 26 := by
      rw [keyli]
      unfold toInt32
      rw [if_pos hcond, hor,
          Nat.mod_eq_of_lt (by omega),
          if_neg (show ¬ ((2 ^ 26 * 63 + a / 4 % 2 ^ 24 * 4) < 2 ^ 31) by omega)]
      push_cast
      ring
    have hsli : specLi a = ((a / 4 % 2 ^ 24 * 4 : Nat) : Int) - 2 ^ 26 := by
      unfold specLi
      rw [hspec, if_neg (by omega)]
    exact ⟨by rw [hli, hsli],
      ⟨((a / 4 % 2 ^ 24 : Nat) : Int) - 2 ^ 24, by rw [hli]; push_cast; ring⟩,
      by rw [hli]; push_cast; omega, by rw [hli]; push_cast; omega, keybd, hbd4⟩

/-- Witness for C10 at the word `0x4bfffffd` (an unconditional branch with
negative displacement and link bit set). -/
theorem C10_li_bd_signed_witness :
    (Instruction.ofWord 0x4bfffffd).li = specLi 0x4bfffffd ∧
    (4 : Int) ∣ (Instruction.ofWord 0x4bfffffd).li ∧
    -(2 ^ 25) ≤ (Instruction.ofWord 0x4bfffffd).li ∧
    (Instruction.ofWord 0x4bfffffd).li ≤ 2 ^ 25 - 4 ∧
    (Instruction.ofWord 0x4bfffffd).bd = toInt16 (0x4bfffffd &&& 0xfffc) ∧
    (4 : Int) ∣ (Instruction.ofWord 0x4bfffffd).bd :=
  C10_li_bd_signed 0x4bfffffd (by decide)

end PowerPC
end InstructionSet

namespace Amiga

/-- A memory region of the Amiga memory map: `read_write_mask` is zero for
regions with no direct memory backing (unmapped / chip-register space) and
nonzero for RAM/ROM; `contents` is the backing store.  Modelled from the
spec: `MemoryMap.hpp` is not under `src/`; `Amiga.cpp` only tests
`read_write_mask` for zero and passes `contents`/`read_write_mask` to
`Microcycle::apply`. -/
structure MemRegion where
  read_write_mask : Nat
  contents : Nat → Nat

namespace Op

/-- Modelled from the spec: the `Microcycle` operation-kind constants live
in `68000.hpp`, outside `src/`; the spec describes the operation kind as a
combinable bit set (new-address, same-address, read, write, byte/word
select, reset, interrupt-acknowledge), so each gets a distinct bit here. -/
def NewAddress : Nat := 0x01

/-- Same-address strobe bit. -/
def SameAddress : Nat := 0x02

/-- Reset line bit. -/
def Reset : Nat := 0x04

/-- Read (vs write) bit. -/
def Read : Nat := 0x08

/-- Lower-byte select bit. -/
def SelectByte : Nat := 0x10

/-- Word select bit. -/
def SelectWord : Nat := 0x20

/-- Interrupt-acknowledge bit. -/
def InterruptAcknowledge : Nat := 0x40

end Op

/-- One timed bus transaction.  Modelled from the spec's bus-cycle data
model: a combinable operation-kind bit set, optional address and data
values (present only when the operation exposes them), and a duration. -/
structure Microcycle where
  operation : Nat
  address : Option Nat
  value : Option Nat
  length : Nat
deriving DecidableEq

namespace Microcycle

/-- The C++ `*cycle.address` dereference; callers only use it on cycles
whose operation exposes an address. -/
def addr (c : Microcycle) : Nat := c.address.getD 0

/-- Modelled from the spec: `host_endian_byte_address()` of `68000.hpp` is
not under `src/`; it is taken to be the byte address of the access. -/
def host_endian_byte_address (c : Microcycle) : Nat := c.addr

/-- `set_value16`: write a 16-bit value onto the data reference. -/
def set_value16 (c : Microcycle) (v : Nat) : Microcycle :=
  { c with value := some (v % 2 ^ 16) }

/-- Low byte of the data value. -/
def value8_low (c : Microcycle) : Nat := c.value.getD 0 % 256

/-- High byte of the data value. -/
def value8_high (c : Microcycle) : Nat := c.value.getD 0 / 256 % 256

end Microcycle

/-- Interface to the chipset, CIA and memory-map collaborators of
`ConcreteMachine::perform_bus_operation` (`Chipset`, the two `MOS6526`
CIAs and `MemoryMap::reset`, all outside the excerpt): time advances,
interrupt-level sampling, the chip-register `perform`, byte-wide CIA
register accesses, and the memory-map reset. -/
structure ChipsetOps (C : Type) where
  run_until_cpu_slot : C → C × Nat
  run_for : Nat → C → C
  get_interrupt_level : C → Nat
  perform : Microcycle → C → C × Microcycle
  cia_a_read : Nat → C → Nat
  cia_b_read : Nat → C → Nat
  cia_a_write : Nat → Nat → C → C
  cia_b_write : Nat → Nat → C → C
  memory_reset : (Nat → MemRegion) → (Nat → MemRegion)

/-- The machine state touched by `perform_bus_operation`: the memory map
(regions indexed by `address >> 18`), the chipset collaborator state, and
the two CPU-facing outputs (sampled interrupt level, VPA flag). -/
structure AmigaState (C : Type) where
  regions : Nat → MemRegion
  chipset : C
  cpuInterruptLevel : Nat
  isPeripheralAddress : Bool

/-- Result of one bus operation: updated machine, the (possibly mutated)
cycle, and the access delay returned to the CPU core. -/
structure PBOResult (C : Type) where
  machine : AmigaState C
  cycle : Microcycle
  delay : Nat

/-- `ConcreteMachine::perform_bus_operation`: advance the chipset to the
next CPU slot for chip-RAM accesses and then across the cycle's length,
sample the interrupt level, honour reset, interrupt-acknowledge and
address-free cycles, set VPA for CIA addresses, then dispatch the access:
CIA registers, chip registers in `0xdff000–0xdff1be`, open bus (reads
return `0xffff`, writes are dropped), or a regular region access through
the `read_write_mask`. -/
def perform_bus_operation {C : Type} (co : ChipsetOps C) (m : AmigaState C)
    (cycle : Microcycle) : PBOResult C :=
  let p :=
    if cycle.operation &&& Op.NewAddress ≠ 0 ∧ cycle.addr < 0x200000 then
      co.run_until_cpu_slot m.chipset
    else (m.chipset, 0)
  let access_delay := p.2
  let total_length := cycle.length + access_delay
  let cs2 := co.run_for total_length p.1
  let m1 := { m with chipset := cs2, cpuInterruptLevel := co.get_interrupt_level cs2 }
  let m2 :=
    if cycle.operation &&& Op.Reset ≠ 0 then { m1 with regions := co.memory_reset m1.regions }
    else m1
  if cycle.operation &&& Op.InterruptAcknowledge ≠ 0 then
    { machine := { m2 with isPeripheralAddress := true }, cycle := cycle, delay := access_delay }
  else if cycle.operation &&& (Op.NewAddress ||| Op.SameAddress) = 0 then
    { machine := m2, cycle := cycle, delay := access_delay }
  else
    let address := cycle.host_endian_byte_address
    let m3 := { m2 with isPeripheralAddress := decide (address &&& 0xe00000 = 0xa00000) }
    if (m3.regions (address >>> 18)).read_write_mask = 0 then
      if cycle.operation &&& (Op.SelectByte ||| Op.SelectWord) ≠ 0 then
        if address &&& 0xe00000 = 0xa00000 then
          let reg := address >>> 8
          if cycle.operation &&& Op.Read ≠ 0 then
            let r0 : Nat := 0xffff
            let r1 := if address &&& 0x1000 = 0 then r0 &&& (0xff00 ||| co.cia_a_read reg m3.chipset) else r0
            let r2 := if address &&& 0x2000 = 0 then r1 &&& (0x00ff ||| (co.cia_b_read reg m3.chipset <<< 8)) else r1
            { machine := m3, cycle := cycle.set_value16 r2, delay := access_delay }
          else
            let c1 := if address &&& 0x1000 = 0 then co.cia_a_write reg cycle.value8_low m3.chipset else m3.chipset
            let c2 := if address &&& 0x2000 = 0 then co.cia_b_write reg cycle.value8_high c1 else c1
            { machine := { m3 with chipset := c2 }, cycle := cycle, delay := access_delay }
        else if 0xdff000 ≤ address ∧ address ≤ 0xdff1be then
          let q := co.perform cycle m3.chipset
          { machine := { m3 with chipset := q.1 }, cycle := q.2, delay := access_delay }
        else
          if cycle.operation &&& Op.Read ≠ 0 then
            { machine := m3, cycle := cycle.set_value16 0xffff, delay := access_delay }
          else
            { machine := m3, cycle := cycle, delay := access_delay }
      else
        { machine := m3, cycle := cycle, delay := access_delay }
    else
      let region := m3.regions (address >>> 18)
      if cycle.operation &&& Op.Read ≠ 0 then
        { machine := m3, cycle := { cycle with value := some (region.contents address) },
          delay := access_delay }
      else
        { machine :=
            { m3 with regions := fun idx =>
                if idx = address >>> 18 then
                  { region with contents := fun a2 =>
                      if a2 = address then cycle.value.getD 0 &&& region.read_write_mask
                      else region.contents a2 }
                else m3.regions idx },
          cycle := cycle, delay := access_delay }

end Amiga

namespace Amiga

/-- C5: open-bus behaviour of the Amiga bus dispatch.  For a bus cycle that
exposes an address and asserts a byte/word select (and is neither a reset
nor an interrupt acknowledge), whose address falls in a region with no
read/write mask, does not match the CIA pattern and lies outside the chip
register range `0xdff000–0xdff1be`: a read gets its data value set to
all-ones (`0xffff`) and the memory backing store is untouched; a write is
dropped — the cycle and the backing store are both unchanged.  Neither case
escapes the (total) dispatch function: open bus is not a failure. -/
theorem C5_open_bus (C : Type) (co : ChipsetOps C) (m : AmigaState C)
    (cycle : Microcycle) (a : Nat)
    (haddr : cycle.address = some a)
    (hexp : cycle.operation &&& (Op.NewAddress ||| Op.SameAddress) ≠ 0)
    (hsel : cycle.operation &&& (Op.SelectByte ||| Op.SelectWord) ≠ 0)
    (hreset : cycle.operation &&& Op.Reset = 0)
    (hack : cycle.operation &&& Op.InterruptAcknowledge = 0)
    (hmask : (m.regions (a >>> 18)).read_write_mask = 0)
    (hcia : ¬ (a &&& 0xe00000 = 0xa00000))
    (hchip : ¬ (0xdff000 ≤ a ∧ a ≤ 0xdff1be)) :
    (perform_bus_operation co m cycle).machine.regions = m.regions ∧
    (cycle.operation &&& Op.Read ≠ 0 →
      (perform_bus_operation co m cycle).cycle = cycle.set_value16 0xffff) ∧
    (cycle.operation &&& Op.Read = 0 →
      (perform_bus_operation co m cycle).cycle = cycle) := by
  have haddr' : cycle.addr = a := by simp [Microcycle.addr, haddr]
  unfold perform_bus_operation
  simp only [Microcycle.host_endian_byte_address, haddr', hack, hreset, hmask, hcia, hchip,
    hexp, hsel, ne_eq, not_false_iff, if_false, if_true, not_true, OfNat.ofNat_ne_zero,
    decide_eq_true_eq, if_neg, ite_false, ite_true]
  refine ⟨?_, fun hr => ?_, fun hnr => ?_⟩
  · split <;> rfl
  · rw [if_pos hr]
  · rw [if_neg (fun h => h hnr)]
end Amiga

namespace Amiga

/-- An inert chipset/CIA/memory-map collaborator used to witness C5. -/
def unitChipset : ChipsetOps Unit :=
  { run_until_cpu_slot := fun _ => ((), 0), run_for := fun _ _ => (),
    get_interrupt_level := fun _ => 0, perform := fun cyc _ => ((), cyc),
    cia_a_read := fun _ _ => 0xff, cia_b_read := fun _ _ => 0xff,
    cia_a_write := fun _ _ _ => (), cia_b_write := fun _ _ _ => (),
    memory_reset := fun r => r }

/-- A machine whose whole address space is unmapped (mask 0 everywhere). -/
def sampleMachine : AmigaState Unit :=
  { regions := fun _ => { read_write_mask := 0, contents := fun _ => 0 },
    chipset := (), cpuInterruptLevel := 0, isPeripheralAddress := false }

/-- A word read of address `0xe00000`: new address strobe, read, word
select. -/
def readSample : Microcycle :=
  { operation := Op.NewAddress ||| Op.Read ||| Op.SelectWord,
    address := some 0xe00000, value := some 0, length := 4 }

/-- Witness for C5: the unmapped word read at `0xe00000` comes back as
`0xffff` and leaves the (everywhere-unmapped) memory map untouched. -/
theorem C5_open_bus_witness :
    (perform_bus_operation unitChipset sampleMachine readSample).machine.regions
        = sampleMachine.regions ∧
    (perform_bus_operation unitChipset sampleMachine readSample).cycle
        = readSample.set_value16 0xffff :=
  have h := C5_open_bus Unit unitChipset sampleMachine readSample 0xe00000 rfl
    (by decide) (by decide) (by decide) (by decide) rfl (by decide) (by decide)
  ⟨h.1, h.2.1 (by decide)⟩

end Amiga

namespace ROMMachine

/-- The ROM-machine construction failure, from `ROMMachine::Error`:
`Amiga.cpp` throws `ROMMachine::Error::MissingROMs` when the fetched ROM
set fails validation. -/
inductive Error where
  | MissingROMs
deriving DecidableEq, Repr

end ROMMachine

namespace Amiga

/-- The ROM-fetch collaborator interface of the `ConcreteMachine`
constructor.  Modelled from the spec: `ROM::Request::validate` and the
fetcher live outside `src/`; the spec's contract is that the fetcher either
returns raw bytes for the named request or signals a missing-ROMs failure,
here split into a validation predicate and the byte extraction
(`roms.find(rom_name)->second`). -/
structure ROMFetchOps (R : Type) where
  validate : R → Bool
  find_bytes : R → List Nat

/-- Modelled from the spec: `Memory::PackBigEndian16` (`MemoryPacker.hpp`,
not under `src/`) packs a byte stream into 16-bit words, first byte into
the high half, as big-endian packing of a 68000 ROM requires. -/
def PackBigEndian16 : List Nat → List Nat
  | b0 :: b1 :: rest => (b0 % 256 * 256 + b1 % 256) :: PackBigEndian16 rest
  | [b0] => [b0 % 256 * 256]
  | [] => []

/-- The portion of `ConcreteMachine` built by the constructor that the
ROM-fetch path touches: the packed kickstart image. -/
structure ConcreteMachineRom where
  kickstart : List Nat
deriving DecidableEq, Repr

/-- The ROM-fetch path of the `ConcreteMachine` constructor: fetch the
hard-coded Kickstart 1.3 request, throw `ROMMachine::Error::MissingROMs`
when validation fails (no machine is produced), otherwise pack the ROM
bytes big-endian into kickstart memory. -/
def constructMachine {R : Type} (ops : ROMFetchOps R) (roms : R) :
    Except ROMMachine.Error ConcreteMachineRom :=
  if ops.validate roms then
    Except.ok { kickstart := PackBigEndian16 (ops.find_bytes roms) }
  else
    Except.error ROMMachine.Error.MissingROMs

/-- C9: a fetch result that fails validation aborts construction with the
typed `MissingROMs` failure — no machine value exists on that path — while
a fetch result that validates yields a machine whose kickstart is the
big-endian 16-bit packing of the fetched bytes. -/
theorem C9_rom_fetch_failure (R : Type) (ops : ROMFetchOps R) (roms : R) :
    (ops.validate roms = false →
      constructMachine ops roms = Except.error ROMMachine.Error.MissingROMs) ∧
    (ops.validate roms = true →
      constructMachine ops roms =
        Except.ok { kickstart := PackBigEndian16 (ops.find_bytes roms) }) := by
  constructor <;> intro h <;> simp [constructMachine, h]

/-- The fetcher shape of the spec: either bytes or nothing. -/
def optionFetch : ROMFetchOps (Option (List Nat)) :=
  { validate := Option.isSome, find_bytes := fun o => o.getD [] }

/-- Witness for C9: a missing fetch aborts with `MissingROMs`; a fetch of
bytes `[0x12, 0x34]` builds a machine with kickstart word `0x1234`. -/
theorem C9_rom_fetch_failure_witness :
    constructMachine optionFetch none = Except.error ROMMachine.Error.MissingROMs ∧
    constructMachine optionFetch (some [0x12, 0x34]) =
      Except.ok { kickstart := [0x1234] } :=
  ⟨(C9_rom_fetch_failure (Option (List Nat)) optionFetch none).1 rfl,
   ((C9_rom_fetch_failure (Option (List Nat)) optionFetch (some [0x12, 0x34])).2 rfl).trans
     (by rfl)⟩

end Amiga
